import Mathlib

/-!
# Verification of the doug-script virtual machine core (`libdougvm`)

Shallow embedding of `src/libdougvm/src/lib.rs` and
`src/libdougvm/src/bytecode/mod.rs`: the `CallStack` (operand stack +
auto-growing locals), `CallFrame` (activation record with parent chain),
and the `VirtualMachine` step/process trampoline.

The `datamodel` module (`Value`, `Function`, `NativeFn`) is declared in
`lib.rs` but its source is not part of the repository snapshot; those
types are modelled from the specification (see the doc comments below).
Rust's `Vec<Value>` operand stack is modelled as a `List Value` with the
head as the top of the stack; `u8` local indices are modelled as
`Fin 256`; the `usize` cursor is a `Nat`, with the wrapping
`(cursor as isize + index as isize) as usize` cast of `CallFrame::jump`
modelled explicitly as arithmetic modulo `2 ^ 64`.
-/

namespace DougVM

/-- Modelled from the spec: the `Value` type of the missing `datamodel`
module — "opaque tagged operand" with "an empty variant" (`Value::None`)
and a module-reference variant (`function.module.clone().into()` converts
a module reference into a `Value`). Module references are opaque and are
modelled as natural-number identifiers; an integer variant stands in for
the remaining (opaque) payload-carrying variants. -/
inductive Value where
  | none
  | int (n : Int)
  | module (m : Nat)
deriving DecidableEq, Repr

/-- `OpError` from `bytecode/mod.rs`. The payloads of `IntoType`
(`ValueTryIntoError`) and `BadType` (`ValueType`) live in the missing
`datamodel` module and are not needed by any claim, so they are elided. -/
inductive OpError where
  | stackEmpty
  | localRead (index : Fin 256)
  | indexRead (i : Int)
  | indexWrite (i : Int)
  | intoType
  | badType
deriving DecidableEq, Repr

/-- `CallStack` from `lib.rs`: operand `stack` (head = top) and
index-addressed `locals`. -/
structure CallStack where
  stack : List Value
  locals : List Value
deriving DecidableEq, Repr

/-- `CallStack::new`. -/
def CallStack.new : CallStack := ⟨[], []⟩

/-- `CallStack::load`: `self.locals.get(index).ok_or(OpError::LocalRead(index))`. -/
def CallStack.load (s : CallStack) (index : Fin 256) : Except OpError Value :=
  match s.locals.get? index.val with
  | Option.some v => Except.ok v
  | Option.none => Except.error (OpError.localRead index)

/-- The locals vector after `CallStack::get_mut_or_resize`:
`if index >= len { resize_with(index + 1, || Value::None) }`. -/
def resizeLocals (l : List Value) (index : Nat) : List Value :=
  if l.length ≤ index then l ++ List.replicate (index + 1 - l.length) Value.none
  else l

/-- `CallStack::store`: resize locals to cover `index`, then write `val`. -/
def CallStack.store (s : CallStack) (index : Fin 256) (val : Value) : CallStack :=
  { s with locals := (resizeLocals s.locals index.val).set index.val val }

/-- `CallStack::swap`: resize locals to cover `index`, then exchange the
slot with the supplied value. Returns the updated stack together with the
previous slot contents (delivered through the `&mut Value` in Rust). -/
def CallStack.swap (s : CallStack) (index : Fin 256) (val : Value) :
    CallStack × Value :=
  ({ s with locals := (resizeLocals s.locals index.val).set index.val val },
   (resizeLocals s.locals index.val).getD index.val Value.none)

/-- `CallStack::push`. -/
def CallStack.push (s : CallStack) (v : Value) : CallStack :=
  { s with stack := v :: s.stack }

/-- `CallStack::pop`: `self.stack.pop().ok_or(OpError::StackEmpty)`. On
success returns the popped value and the updated stack. -/
def CallStack.pop (s : CallStack) : Except OpError (Value × CallStack) :=
  match s.stack with
  | [] => Except.error OpError.stackEmpty
  | v :: rest => Except.ok (v, { s with stack := rest })

theorem resizeLocals_length (l : List Value) (index : Nat) :
    (resizeLocals l index).length = max l.length (index + 1) := by
  unfold resizeLocals
  split
  · simp only [List.length_append, List.length_replicate]
    omega
  · omega

theorem resizeLocals_get_lt (l : List Value) (index i : Nat) (h : i < l.length) :
    (resizeLocals l index).get? i = l.get? i := by
  unfold resizeLocals
  split
  · rw [List.get?_append h]
  · rfl

theorem resizeLocals_get_new (l : List Value) (index i : Nat)
    (h1 : l.length ≤ i) (h2 : i ≤ index) :
    (resizeLocals l index).get? i = Option.some Value.none := by
  unfold resizeLocals
  rw [if_pos (le_trans h1 h2)]
  rw [List.get?_append_right h1]
  rw [List.get?_eq_get (by simp only [List.length_replicate]; omega)]
  simp

/-- Helper: `store(i, v)` then `load(i)` yields `v`. -/
theorem CallStack.store_load (s : CallStack) (i : Fin 256) (v : Value) :
    (s.store i v).load i = Except.ok v := by
  unfold CallStack.store CallStack.load
  simp only
  rw [List.get?_set_eq_of_lt v (by rw [resizeLocals_length]; omega)]

/-- Helper: storing at `j` leaves the locals covering every index below
`max (old length) (j+1)`; a slot `i < j` that was beyond the old length is
auto-created and holds `Value.none`. -/
theorem CallStack.store_load_intermediate (s : CallStack) (i j : Fin 256)
    (v : Value) (hij : i.val < j.val) (hlen : s.locals.length ≤ i.val) :
    ((s.store j v).load i) = Except.ok Value.none := by
  unfold CallStack.store CallStack.load
  simp only
  rw [List.get?_set_ne _ _ (by omega)]
  rw [resizeLocals_get_new s.locals j.val i.val hlen (by omega)]

/-- Modelled from the spec: `Function` from the missing `datamodel` module
— "an ordered sequence of Operations plus a module reference". The
operation type `OpT` is a parameter: operations are the pluggable
extension point (the `Operation` trait of `bytecode/mod.rs`). -/
structure Function (OpT : Type) where
  module : Nat
  ops : List OpT

/-- `OpAction` from `bytecode/mod.rs`. `Jump`'s `i32` displacement is
modelled as an `Int` (`CallFrame::jump` sign-extends it to `isize`
anyway); `NativeFn` is modelled from the spec as
`List Value → Value`. `Return` is spelled `ret`. -/
inductive OpAction (OpT : Type) where
  | none
  | jump (dest : Int)
  | call (func : Function OpT) (args : List Value)
  | callNative (func : List Value → Value) (args : List Value)
  | ret (v : Value)

/-- The `Operation` trait method:
`fn exec(&self, m: &mut CallStack) -> Result<OpAction, OpError>`, in
state-passing style. -/
def OpExec (OpT : Type) : Type :=
  OpT → CallStack → Except OpError (OpAction OpT × CallStack)

/-- `CallFrame` from `lib.rs`: `parent: Option<Box<CallFrame>>` is
rendered as two constructors, `root` (no parent) and `child` (boxed
parent), so the chain is a plain recursive value. -/
inductive CallFrame (OpT : Type) where
  | root (function : Function OpT) (cursor : Nat) (stack : CallStack)
  | child (parent : CallFrame OpT) (function : Function OpT)
      (cursor : Nat) (stack : CallStack)

namespace CallFrame

variable {OpT : Type}

/-- The `parent` field. -/
def parent : CallFrame OpT → Option (CallFrame OpT)
  | .root .. => Option.none
  | .child p .. => Option.some p

/-- The `function` field. -/
def function : CallFrame OpT → Function OpT
  | .root f .. => f
  | .child _ f .. => f

/-- The `cursor` field. -/
def cursor : CallFrame OpT → Nat
  | .root _ c _ => c
  | .child _ _ c _ => c

/-- The `stack` field. -/
def stack : CallFrame OpT → CallStack
  | .root _ _ s => s
  | .child _ _ _ s => s

/-- `CallFrame::new`: fresh `CallStack`, `store(0, function.module.clone().into())`,
no parent, cursor 0. -/
def new (f : Function OpT) : CallFrame OpT :=
  .root f 0 (CallStack.new.store 0 (Value.module f.module))

/-- `CallFrame::push`: push onto this frame's operand stack. -/
def push : CallFrame OpT → Value → CallFrame OpT
  | .root f c s, v => .root f c (s.push v)
  | .child p f c s, v => .child p f c (s.push v)

/-- The `(cursor as isize + index as isize) as usize` cast in
`CallFrame::jump`: two's-complement arithmetic modulo `2 ^ 64`
(release-mode wrapping semantics). -/
def usizeOfInt (i : Int) : Nat := (i % (2 : Int) ^ 64).toNat

/-- `CallFrame::jump`: `self.cursor = (self.cursor as isize + index as isize) as usize`. -/
def jump : CallFrame OpT → Int → CallFrame OpT
  | .root f c s, d => .root f (usizeOfInt ((c : Int) + d)) s
  | .child p f c s, d => .child p f (usizeOfInt ((c : Int) + d)) s

/-- Replace the cursor (used to model `self.cursor += 1`). -/
def withCursor : CallFrame OpT → Nat → CallFrame OpT
  | .root f _ s, c => .root f c s
  | .child p f _ s, c => .child p f c s

/-- Replace the operand stack (used to model `op.exec(&mut self.stack)`). -/
def withStack : CallFrame OpT → CallStack → CallFrame OpT
  | .root f c _, s => .root f c s
  | .child p f c _, s => .child p f c s

/-- `CallFrame::exec`: fetch `ops.get(cursor)`; if absent, return
`Ok(OpAction::Return(Value::None))` without advancing the cursor;
otherwise advance the cursor by one, then run the operation against this
frame's `CallStack`. -/
def exec (execOp : OpExec OpT) (fr : CallFrame OpT) :
    Except OpError (OpAction OpT × CallFrame OpT) :=
  match fr.function.ops.get? fr.cursor with
  | Option.none => Except.ok (OpAction.ret Value.none, fr)
  | Option.some op =>
    let fr1 := fr.withCursor (fr.cursor + 1)
    match execOp op fr1.stack with
    | Except.error e => Except.error e
    | Except.ok (a, s1) => Except.ok (a, fr1.withStack s1)

end CallFrame

/-- `VmState` from `lib.rs`. -/
inductive VmState where
  | running
  | exited (v : Value)

/-- `VirtualMachine` from `lib.rs`: owns the (optional) current frame. -/
structure VirtualMachine (OpT : Type) where
  frame : Option (CallFrame OpT)

namespace VirtualMachine

variable {OpT : Type}

/-- `VirtualMachine::new`. -/
def new (func : Function OpT) : VirtualMachine OpT :=
  ⟨Option.some (CallFrame.new func)⟩

/-- `VirtualMachine::step`: `self.frame.as_mut().unwrap(); frame.exec()`.
The outer `Option` models the `unwrap`: `Option.none` is the panic on a
missing frame (after the VM has exited). -/
def step (execOp : OpExec OpT) (vm : VirtualMachine OpT) :
    Option (Except OpError (OpAction OpT × VirtualMachine OpT)) :=
  match vm.frame with
  | Option.none => Option.none
  | Option.some fr =>
    Option.some (match fr.exec execOp with
      | Except.error e => Except.error e
      | Except.ok (a, fr1) => Except.ok (a, ⟨Option.some fr1⟩))

/-- Attach a parent link to a frame (models
`swap(&mut self.frame, &mut callee.parent)` on a fresh callee whose
parent is `None`). -/
def linkParent (fr : CallFrame OpT) (p : Option (CallFrame OpT)) : CallFrame OpT :=
  match p with
  | Option.none => fr
  | Option.some q => .child q fr.function fr.cursor fr.stack

/-- `VirtualMachine::process`. The outer `Option` models the
`self.frame.as_mut().unwrap()` panics: the `Jump`, `CallNative` and
`Return` arms unwrap the current frame; the `None` and `Call` arms do
not. -/
def process (vm : VirtualMachine OpT) (action : OpAction OpT) :
    Option (Except OpError (VmState × VirtualMachine OpT)) :=
  match action with
  | OpAction.none => Option.some (Except.ok (VmState.running, vm))
  | OpAction.jump d =>
    match vm.frame with
    | Option.none => Option.none
    | Option.some fr =>
      Option.some (Except.ok (VmState.running, ⟨Option.some (fr.jump d)⟩))
  | OpAction.call func args =>
    let callee := args.foldl CallFrame.push (CallFrame.new func)
    Option.some (Except.ok (VmState.running,
      ⟨Option.some (linkParent callee vm.frame)⟩))
  | OpAction.callNative func args =>
    match vm.frame with
    | Option.none => Option.none
    | Option.some fr =>
      Option.some (Except.ok (VmState.running, ⟨Option.some (fr.push (func args))⟩))
  | OpAction.ret v =>
    match vm.frame with
    | Option.none => Option.none
    | Option.some fr =>
      match fr.parent with
      | Option.some p =>
        Option.some (Except.ok (VmState.running, ⟨Option.some (p.push v)⟩))
      | Option.none =>
        Option.some (Except.ok (VmState.exited v, ⟨Option.none⟩))

/-- Outcome of `run_until_exited`, with two extra markers the Rust type
cannot observe: `panicked` for an `unwrap` panic and `outOfFuel` for the
fuel bound of the shallow embedding of the unbounded `loop`. -/
inductive RunResult where
  | ok (v : Value)
  | error (e : OpError)
  | panicked
  | outOfFuel
deriving DecidableEq, Repr

/-- `VirtualMachine::run_until_exited`, with fuel bounding the number of
loop iterations: `step`, propagate its error, `process`, continue on
`Running`, return the value on `Exited`. -/
def runUntilExited (execOp : OpExec OpT) :
    Nat → VirtualMachine OpT → RunResult
  | 0, _ => RunResult.outOfFuel
  | fuel + 1, vm =>
    match vm.step execOp with
    | Option.none => RunResult.panicked
    | Option.some (Except.error e) => RunResult.error e
    | Option.some (Except.ok (a, vm1)) =>
      match vm1.process a with
      | Option.none => RunResult.panicked
      | Option.some (Except.error e) => RunResult.error e
      | Option.some (Except.ok (VmState.exited v, _)) => RunResult.ok v
      | Option.some (Except.ok (VmState.running, vm2)) =>
        runUntilExited execOp fuel vm2

end VirtualMachine

/-- A small concrete instruction set used to instantiate the pluggable
`Operation` parameter in witnesses (the repository's own `Op` enum is an
empty placeholder, so concrete instructions come from outside this
core). `doCall` carries the callee's pieces rather than a `Function` to
keep the type non-nested. -/
inductive DemoOp where
  | pushInt (n : Int)
  | retTop
  | doCall (module : Nat) (ops : List DemoOp) (args : List Value)
  | jumpBy (d : Int)
  | noop

/-- `Operation::exec` for `DemoOp`. -/
def DemoOp.run : OpExec DemoOp
  | DemoOp.pushInt n, s => Except.ok (OpAction.none, s.push (Value.int n))
  | DemoOp.retTop, s =>
    match s.pop with
    | Except.error e => Except.error e
    | Except.ok (v, s1) => Except.ok (OpAction.ret v, s1)
  | DemoOp.doCall m ops args, s => Except.ok (OpAction.call ⟨m, ops⟩ args, s)
  | DemoOp.jumpBy d, s => Except.ok (OpAction.jump d, s)
  | DemoOp.noop, s => Except.ok (OpAction.none, s)

/-- Push a list of values left to right (`for arg in args { push(arg) }`). -/
def CallStack.pushAll (s : CallStack) (vs : List Value) : CallStack :=
  vs.foldl CallStack.push s

/-- Pop `n` times, collecting the popped values in pop order. -/
def CallStack.popN : Nat → CallStack → Except OpError (List Value × CallStack)
  | 0, s => Except.ok ([], s)
  | n + 1, s =>
    match s.pop with
    | Except.error e => Except.error e
    | Except.ok (v, s1) =>
      match popN n s1 with
      | Except.error e => Except.error e
      | Except.ok (vs, s2) => Except.ok (v :: vs, s2)

theorem CallStack.pushAll_stack (vs : List Value) (s : CallStack) :
    s.pushAll vs = ⟨vs.reverse ++ s.stack, s.locals⟩ := by
  induction vs generalizing s with
  | nil => rfl
  | cons v vs ih =>
    show CallStack.pushAll (s.push v) vs = _
    rw [ih]
    simp [CallStack.push]

theorem CallStack.popN_exact (l1 l2 loc : List Value) :
    CallStack.popN l1.length ⟨l1 ++ l2, loc⟩ = Except.ok (l1, ⟨l2, loc⟩) := by
  induction l1 with
  | nil => rfl
  | cons v l1 ih =>
    show CallStack.popN (l1.length + 1) ⟨v :: (l1 ++ l2), loc⟩ = _
    unfold CallStack.popN
    simp only [CallStack.pop, ih]

/-- **C5.** LIFO law: for any starting stack `s`, pushing `v1 .. vn` in
order and then popping `n` times succeeds on every pop and returns the
values in exact reverse order `vn .. v1`, leaving `s` (operand stack and
locals) as it was. -/
theorem lifo_push_pop (s : CallStack) (vs : List Value) :
    CallStack.popN vs.length (s.pushAll vs) = Except.ok (vs.reverse, s) := by
  rw [CallStack.pushAll_stack]
  have h := CallStack.popN_exact vs.reverse s.stack s.locals
  rw [List.length_reverse] at h
  rw [h]

/-- **C6.** `store(i, v)` then `load(i)` returns `v` unchanged; and a
store at a higher index `j` auto-extends the locals, every newly created
intermediate slot `i` (at or beyond the old length, below `j`) reading as
the empty `Value` rather than failing. -/
theorem store_load_roundtrip (s : CallStack) (i : Fin 256) (v : Value) :
    (s.store i v).load i = Except.ok v ∧
    (∀ j : Fin 256, i.val < j.val → s.locals.length ≤ i.val →
      (s.store j v).load i = Except.ok Value.none) :=
  ⟨CallStack.store_load s i v,
   fun j hij hlen => CallStack.store_load_intermediate s i j v hij hlen⟩

/-- Witness for C6 at concrete inputs: `store 1 5; load 1 = 5` on a fresh
stack, and `store 2 5; load 1` yields the empty value on a fresh stack. -/
theorem store_load_roundtrip_witness :
    (CallStack.new.store 1 (Value.int 5)).load 1 = Except.ok (Value.int 5) ∧
    (CallStack.new.store 2 (Value.int 5)).load 1 = Except.ok Value.none :=
  ⟨(store_load_roundtrip CallStack.new 1 (Value.int 5)).1,
   (store_load_roundtrip CallStack.new 1 (Value.int 5)).2 2 (by decide)
     (by decide)⟩

/-- **C1, counterexample.** The claim says `load(i)` fails with
`LocalRead(i)` even when `i` is an intermediate slot auto-created by a
store at a higher index. On the code, `store(2, 5)` on a fresh stack
resizes the locals to length 3, so slot 1 exists and `load(1)` returns
`Ok(Value::None)` — it does not fail. -/
theorem load_auto_slot_succeeds :
    (CallStack.new.store 2 (Value.int 5)).load 1 = Except.ok Value.none ∧
    (CallStack.new.store 2 (Value.int 5)).load 1 ≠
      Except.error (OpError.localRead 1) := by
  refine ⟨rfl, ?_⟩
  intro h
  rw [show (CallStack.new.store 2 (Value.int 5)).load 1 =
        Except.ok Value.none from rfl] at h
  exact Except.noConfusion h

/-- **C1, amended.** `load(i)` fails with `LocalRead(i)` exactly when `i`
is at or beyond the current length of the locals vector — that is, when
no store has ever grown the locals to cover `i`. A slot that was
auto-created by a store at a higher index is covered, so loading it
succeeds (with the empty `Value`, per C6) instead of failing. -/
theorem load_localRead_iff (s : CallStack) (i : Fin 256) :
    s.load i = Except.error (OpError.localRead i) ↔ s.locals.length ≤ i.val := by
  unfold CallStack.load
  constructor
  · intro h
    by_contra hlen
    rw [List.get?_eq_get (by omega)] at h
    exact Except.noConfusion h
  · intro hlen
    rw [List.get?_eq_none.mpr hlen]

/-- **C7.** `pop()` on an empty operand stack fails with `StackEmpty`; it
is a returned error, not a process abort, and it produces no successor
state, so the locals are untouched and a second `pop()` on the same stack
fails the same way. -/
theorem pop_on_empty (s : CallStack) (hs : s.stack = []) :
    s.pop = Except.error OpError.stackEmpty := by
  obtain ⟨st, loc⟩ := s
  subst hs
  rfl

/-- Witness for C7: a frame created with zero pushed arguments has an
empty operand stack, and `pop()` on it fails with `StackEmpty`. -/
theorem pop_on_empty_witness :
    (CallFrame.new (⟨7, []⟩ : Function DemoOp)).stack.stack = [] ∧
    (CallFrame.new (⟨7, []⟩ : Function DemoOp)).stack.pop =
      Except.error OpError.stackEmpty :=
  ⟨rfl, pop_on_empty (CallFrame.new (⟨7, []⟩ : Function DemoOp)).stack rfl⟩

namespace CallFrame

variable {OpT : Type}

@[simp] theorem withCursor_cursor (fr : CallFrame OpT) (n : Nat) :
    (fr.withCursor n).cursor = n := by cases fr <;> rfl

@[simp] theorem withCursor_stack (fr : CallFrame OpT) (n : Nat) :
    (fr.withCursor n).stack = fr.stack := by cases fr <;> rfl

@[simp] theorem withCursor_function (fr : CallFrame OpT) (n : Nat) :
    (fr.withCursor n).function = fr.function := by cases fr <;> rfl

@[simp] theorem withCursor_parent (fr : CallFrame OpT) (n : Nat) :
    (fr.withCursor n).parent = fr.parent := by cases fr <;> rfl

@[simp] theorem withStack_cursor (fr : CallFrame OpT) (s : CallStack) :
    (fr.withStack s).cursor = fr.cursor := by cases fr <;> rfl

@[simp] theorem withStack_stack (fr : CallFrame OpT) (s : CallStack) :
    (fr.withStack s).stack = s := by cases fr <;> rfl

@[simp] theorem withStack_function (fr : CallFrame OpT) (s : CallStack) :
    (fr.withStack s).function = fr.function := by cases fr <;> rfl

@[simp] theorem withStack_parent (fr : CallFrame OpT) (s : CallStack) :
    (fr.withStack s).parent = fr.parent := by cases fr <;> rfl

@[simp] theorem push_cursor (fr : CallFrame OpT) (v : Value) :
    (fr.push v).cursor = fr.cursor := by cases fr <;> rfl

@[simp] theorem push_stack (fr : CallFrame OpT) (v : Value) :
    (fr.push v).stack = fr.stack.push v := by cases fr <;> rfl

@[simp] theorem push_function (fr : CallFrame OpT) (v : Value) :
    (fr.push v).function = fr.function := by cases fr <;> rfl

@[simp] theorem push_parent (fr : CallFrame OpT) (v : Value) :
    (fr.push v).parent = fr.parent := by cases fr <;> rfl

@[simp] theorem jump_cursor (fr : CallFrame OpT) (d : Int) :
    (fr.jump d).cursor = usizeOfInt ((fr.cursor : Int) + d) := by
  cases fr <;> rfl

@[simp] theorem jump_stack (fr : CallFrame OpT) (d : Int) :
    (fr.jump d).stack = fr.stack := by cases fr <;> rfl

@[simp] theorem jump_function (fr : CallFrame OpT) (d : Int) :
    (fr.jump d).function = fr.function := by cases fr <;> rfl

@[simp] theorem jump_parent (fr : CallFrame OpT) (d : Int) :
    (fr.jump d).parent = fr.parent := by cases fr <;> rfl

theorem usizeOfInt_eq_of_bounds (x : Int) (h0 : 0 ≤ x) (h1 : x < 2 ^ 64) :
    (usizeOfInt x : Int) = x := by
  unfold usizeOfInt
  rw [Int.emod_eq_of_lt h0 h1, Int.toNat_of_nonneg h0]

/-- `exec` on an in-range cursor: the cursor is bumped first, then the
operation runs on the frame's stack; a successful operation yields its
action together with the frame carrying the bumped cursor and the
operation's final stack. -/
theorem exec_advances (execOp : OpExec OpT) (fr : CallFrame OpT) (op : OpT)
    (a : OpAction OpT) (s1 : CallStack)
    (hop : fr.function.ops.get? fr.cursor = Option.some op)
    (hrun : execOp op fr.stack = Except.ok (a, s1)) :
    fr.exec execOp =
      Except.ok (a, (fr.withCursor (fr.cursor + 1)).withStack s1) := by
  unfold exec
  rw [hop]
  simp only [withCursor_stack]
  rw [hrun]

/-- `exec` on an out-of-range cursor synthesizes `Return(Value::None)`
and leaves the frame untouched. -/
theorem exec_fallthrough (execOp : OpExec OpT) (fr : CallFrame OpT)
    (h : fr.function.ops.length ≤ fr.cursor) :
    fr.exec execOp = Except.ok (OpAction.ret Value.none, fr) := by
  unfold exec
  rw [List.get?_eq_none.mpr h]

end CallFrame

/-- **C3.** When the cursor is at or beyond the end of the function's
operation sequence, `execute()` returns `Return(empty Value)` without
error and without touching the frame (in particular the cursor is not
advanced by the fetch); if that frame is outermost (no parent),
`run_until_exited` terminates with the empty value on this very
iteration, whatever fuel remains. -/
theorem implicit_return_at_end {OpT : Type} (execOp : OpExec OpT)
    (fr : CallFrame OpT) (h : fr.function.ops.length ≤ fr.cursor) :
    fr.exec execOp = Except.ok (OpAction.ret Value.none, fr) ∧
    (fr.parent = Option.none → ∀ fuel : Nat,
      VirtualMachine.runUntilExited execOp (fuel + 1) ⟨Option.some fr⟩ =
        VirtualMachine.RunResult.ok Value.none) := by
  refine ⟨CallFrame.exec_fallthrough execOp fr h, fun hp fuel => ?_⟩
  unfold VirtualMachine.runUntilExited
  unfold VirtualMachine.step
  simp only
  rw [CallFrame.exec_fallthrough execOp fr h]
  simp only [VirtualMachine.process]
  rw [hp]

/-- Witness for C3: an empty function body; the VM exits at once with the
empty value. -/
theorem implicit_return_at_end_witness :
    (CallFrame.new (⟨2, []⟩ : Function DemoOp)).exec DemoOp.run =
      Except.ok (OpAction.ret Value.none, CallFrame.new (⟨2, []⟩ : Function DemoOp)) ∧
    VirtualMachine.runUntilExited DemoOp.run 1
      ⟨Option.some (CallFrame.new (⟨2, []⟩ : Function DemoOp))⟩ =
      VirtualMachine.RunResult.ok Value.none := by
  have h := implicit_return_at_end DemoOp.run
    (CallFrame.new (⟨2, []⟩ : Function DemoOp)) (by decide)
  exact ⟨h.1, h.2 rfl 0⟩

/-- **C4.** The cursor is incremented from `c` to `c + 1` before the
fetched instruction runs; if the instruction yields `Jump(d)` then
processing that action applies the signed displacement to the already
incremented cursor, so (whenever `c + 1 + d` is representable, i.e.
nonnegative and below `2 ^ 64`) the frame's cursor becomes exactly
`c + 1 + d` and the next `execute()` fetches the operation at index
`c + 1 + d`. -/
theorem cursor_increment_then_jump {OpT : Type} (execOp : OpExec OpT)
    (fr : CallFrame OpT) (op : OpT) (d : Int) (s1 : CallStack)
    (hop : fr.function.ops.get? fr.cursor = Option.some op) :
    (∀ a : OpAction OpT, execOp op fr.stack = Except.ok (a, s1) →
      fr.exec execOp =
        Except.ok (a, (fr.withCursor (fr.cursor + 1)).withStack s1)) ∧
    (execOp op fr.stack = Except.ok (OpAction.jump d, s1) →
      0 ≤ (fr.cursor : Int) + 1 + d → (fr.cursor : Int) + 1 + d < 2 ^ 64 →
      VirtualMachine.process
          ⟨Option.some ((fr.withCursor (fr.cursor + 1)).withStack s1)⟩
          (OpAction.jump d) =
        Option.some (Except.ok (VmState.running,
          ⟨Option.some (((fr.withCursor (fr.cursor + 1)).withStack s1).jump d)⟩)) ∧
      ((((fr.withCursor (fr.cursor + 1)).withStack s1).jump d).cursor : Int) =
        (fr.cursor : Int) + 1 + d ∧
      (((fr.withCursor (fr.cursor + 1)).withStack s1).jump d).function.ops.get?
          ((((fr.withCursor (fr.cursor + 1)).withStack s1).jump d).cursor) =
        fr.function.ops.get? (((fr.cursor : Int) + 1 + d).toNat)) := by
  refine ⟨fun a hrun => CallFrame.exec_advances execOp fr op a s1 hop hrun,
    fun _ hlo hhi => ⟨rfl, ?_, ?_⟩⟩
  · simp only [CallFrame.jump_cursor, CallFrame.withStack_cursor,
      CallFrame.withCursor_cursor]
    have : ((fr.cursor + 1 : Nat) : Int) + d = (fr.cursor : Int) + 1 + d := by
      push_cast; ring
    rw [this]
    exact CallFrame.usizeOfInt_eq_of_bounds _ hlo hhi
  · simp only [CallFrame.jump_cursor, CallFrame.jump_function,
      CallFrame.withStack_cursor, CallFrame.withStack_function,
      CallFrame.withCursor_cursor, CallFrame.withCursor_function]
    congr 1
    have : ((fr.cursor + 1 : Nat) : Int) + d = (fr.cursor : Int) + 1 + d := by
      push_cast; ring
    unfold CallFrame.usizeOfInt
    rw [this, Int.emod_eq_of_lt hlo hhi]

/-- Witness for C4: a `jumpBy 2` instruction at cursor 0; after the
increment and the jump the cursor is 3. -/
theorem cursor_increment_then_jump_witness :
    (CallFrame.root (⟨1, [DemoOp.jumpBy 2, DemoOp.noop, DemoOp.noop,
        DemoOp.noop]⟩ : Function DemoOp) 0
        (⟨[], [Value.module 1]⟩ : CallStack)).exec DemoOp.run =
      Except.ok (OpAction.jump 2,
        CallFrame.root (⟨1, [DemoOp.jumpBy 2, DemoOp.noop, DemoOp.noop,
          DemoOp.noop]⟩ : Function DemoOp) 1
          (⟨[], [Value.module 1]⟩ : CallStack)) ∧
    (((CallFrame.root (⟨1, [DemoOp.jumpBy 2, DemoOp.noop, DemoOp.noop,
        DemoOp.noop]⟩ : Function DemoOp) 1
        (⟨[], [Value.module 1]⟩ : CallStack)).jump 2).cursor : Int) = 3 := by
  have h := cursor_increment_then_jump DemoOp.run
    (CallFrame.root (⟨1, [DemoOp.jumpBy 2, DemoOp.noop, DemoOp.noop,
      DemoOp.noop]⟩ : Function DemoOp) 0
      (⟨[], [Value.module 1]⟩ : CallStack))
    (DemoOp.jumpBy 2) 2 (⟨[], [Value.module 1]⟩ : CallStack) rfl
  refine ⟨h.1 (OpAction.jump 2) rfl, ?_⟩
  have h2 := (h.2 rfl (by decide) (by decide)).2.1
  exact h2

theorem CallFrame.foldl_push_root {OpT : Type} (args : List Value)
    (f : Function OpT) (c : Nat) (s : CallStack) :
    args.foldl CallFrame.push (CallFrame.root f c s) =
      CallFrame.root f c (s.pushAll args) := by
  induction args generalizing s with
  | nil => rfl
  | cons v vs ih =>
    show vs.foldl CallFrame.push (CallFrame.root f c (s.push v)) = _
    rw [ih]
    rfl

theorem CallFrame.new_eq {OpT : Type} (f : Function OpT) :
    CallFrame.new f =
      CallFrame.root f 0 (⟨[], [Value.module f.module]⟩ : CallStack) := rfl

/-- **C2.** Call/return protocol. With current frame `fr` (operand stack
`S = fr.stack.stack`):
 1. processing `Call(f, args)` makes current a fresh frame for `f` —
    cursor 0, locals holding only the module slot, operand stack exactly
    `args` pushed in the order given (head of the list = top of stack =
    last argument) — whose parent link owns `fr`;
 2. a later `Return(v)` processed while any callee `g` whose parent is
    `fr` is current makes `fr` current again with `v` pushed on top of
    `S`, `fr`'s cursor untouched, and every other part of `g` (its
    locals, operand stack, cursor) discarded;
 3. the `fr` captured as parent by a `Call` produced by `execute()` has
    its cursor already advanced past the call instruction: executing the
    instruction at cursor `c` hands `process` a current frame with
    cursor `c + 1`, so after the return the caller resumes at `c + 1`. -/
theorem call_return_protocol {OpT : Type} (fr : CallFrame OpT)
    (f : Function OpT) (args : List Value) (v : Value) :
    (VirtualMachine.process ⟨Option.some fr⟩ (OpAction.call f args) =
      Option.some (Except.ok (VmState.running, ⟨Option.some
        (CallFrame.child fr f 0
          (⟨args.reverse, [Value.module f.module]⟩ : CallStack))⟩))) ∧
    (∀ g : CallFrame OpT, g.parent = Option.some fr →
      VirtualMachine.process ⟨Option.some g⟩ (OpAction.ret v) =
        Option.some (Except.ok (VmState.running,
          ⟨Option.some (fr.push v)⟩))) ∧
    (∀ (execOp : OpExec OpT) (op : OpT) (s1 : CallStack),
      fr.function.ops.get? fr.cursor = Option.some op →
      execOp op fr.stack = Except.ok (OpAction.call f args, s1) →
      VirtualMachine.step execOp ⟨Option.some fr⟩ =
        Option.some (Except.ok (OpAction.call f args, ⟨Option.some
          ((fr.withCursor (fr.cursor + 1)).withStack s1)⟩)) ∧
      ((fr.withCursor (fr.cursor + 1)).withStack s1).cursor = fr.cursor + 1) := by
  refine ⟨?_, ?_, ?_⟩
  · have hred : VirtualMachine.process (⟨Option.some fr⟩ : VirtualMachine OpT)
        (OpAction.call f args) =
        Option.some (Except.ok (VmState.running, ⟨Option.some
          (VirtualMachine.linkParent
            (args.foldl CallFrame.push (CallFrame.new f))
            (Option.some fr))⟩)) := rfl
    rw [hred, CallFrame.new_eq, CallFrame.foldl_push_root,
      CallStack.pushAll_stack]
    simp [VirtualMachine.linkParent, CallFrame.function, CallFrame.cursor,
      CallFrame.stack]
  · intro g hg
    cases g with
    | root _ _ _ => exact absurd hg (by simp [CallFrame.parent])
    | child p gf gc gs =>
      have hp : p = fr := by
        simpa [CallFrame.parent] using hg
      subst hp
      rfl
  · intro execOp op s1 hop hrun
    refine ⟨?_, by simp⟩
    unfold VirtualMachine.step
    simp only
    rw [CallFrame.exec_advances execOp fr op (OpAction.call f args) s1 hop hrun]


/-- The caller function of the C2 witness: its single instruction calls
function 9 with arguments 1 and 2. -/
def callerFn : Function DemoOp :=
  ⟨3, [DemoOp.doCall 9 [] [Value.int 1, Value.int 2]]⟩

/-- The C2 witness caller frame before the call, pre-call operand stack
`[7]`. -/
def callerFr0 : CallFrame DemoOp :=
  CallFrame.root callerFn 0 (⟨[Value.int 7], [Value.module 3]⟩ : CallStack)

/-- The C2 witness caller frame with the cursor advanced past the call
instruction. -/
def callerFr1 : CallFrame DemoOp :=
  CallFrame.root callerFn 1 (⟨[Value.int 7], [Value.module 3]⟩ : CallStack)

/-- The C2 witness callee frame: fresh frame for function 9 with the
arguments pushed (2 on top) and the caller linked as parent. -/
def calleeFr : CallFrame DemoOp :=
  CallFrame.child callerFr1 (⟨9, []⟩ : Function DemoOp) 0
    (⟨[Value.int 2, Value.int 1], [Value.module 9]⟩ : CallStack)

/-- Witness for C2: a caller whose single instruction is a VM-level call
of function 9 with arguments 1, 2; stepping it advances the cursor to 1
and yields the call action, processing the action links the caller under
the fresh callee frame, and a `Return(5)` restores the caller with 5
pushed on its pre-call stack. -/
theorem call_return_protocol_witness :
    VirtualMachine.step DemoOp.run ⟨Option.some callerFr0⟩ =
      Option.some (Except.ok
        (OpAction.call (⟨9, []⟩ : Function DemoOp) [Value.int 1, Value.int 2],
         ⟨Option.some callerFr1⟩)) ∧
    VirtualMachine.process ⟨Option.some callerFr1⟩
        (OpAction.call (⟨9, []⟩ : Function DemoOp) [Value.int 1, Value.int 2]) =
      Option.some (Except.ok (VmState.running, ⟨Option.some calleeFr⟩)) ∧
    VirtualMachine.process ⟨Option.some calleeFr⟩
        (OpAction.ret (Value.int 5)) =
      Option.some (Except.ok (VmState.running, ⟨Option.some (CallFrame.root
        callerFn 1
        (⟨[Value.int 5, Value.int 7], [Value.module 3]⟩ : CallStack))⟩)) := by
  have hcaller := call_return_protocol callerFr1 (⟨9, []⟩ : Function DemoOp)
    [Value.int 1, Value.int 2] (Value.int 5)
  have hstep := (call_return_protocol callerFr0 (⟨9, []⟩ : Function DemoOp)
    [Value.int 1, Value.int 2] (Value.int 5)).2.2
    DemoOp.run (DemoOp.doCall 9 [] [Value.int 1, Value.int 2])
    (⟨[Value.int 7], [Value.module 3]⟩ : CallStack) rfl rfl
  exact ⟨hstep.1, hcaller.1, hcaller.2.1 calleeFr rfl⟩

/-- Slot-0 invariant for a frame chain: every frame's local slot 0 loads
as its own function's module reference. -/
def CallFrame.slot0Inv {OpT : Type} : CallFrame OpT → Prop
  | .root f _ s => s.load 0 = Except.ok (Value.module f.module)
  | .child p f _ s =>
    s.load 0 = Except.ok (Value.module f.module) ∧ p.slot0Inv

/-- Slot-0 invariant for a VM: its frame chain, if any, satisfies
`CallFrame.slot0Inv`. -/
def VirtualMachine.slot0Inv {OpT : Type} (vm : VirtualMachine OpT) : Prop :=
  match vm.frame with
  | Option.none => True
  | Option.some fr => fr.slot0Inv

theorem CallFrame.slot0Inv_push {OpT : Type} (fr : CallFrame OpT) (v : Value) :
    (fr.push v).slot0Inv ↔ fr.slot0Inv := by
  cases fr <;> exact Iff.rfl

theorem CallFrame.slot0Inv_jump {OpT : Type} (fr : CallFrame OpT) (d : Int) :
    (fr.jump d).slot0Inv ↔ fr.slot0Inv := by
  cases fr <;> exact Iff.rfl

theorem CallFrame.slot0Inv_head {OpT : Type} (fr : CallFrame OpT)
    (h : fr.slot0Inv) :
    fr.stack.load 0 = Except.ok (Value.module fr.function.module) := by
  cases fr with
  | root f c s => exact h
  | child p f c s => exact h.1

theorem CallFrame.slot0Inv_callee {OpT : Type} (func : Function OpT)
    (args : List Value) :
    (args.foldl CallFrame.push (CallFrame.new func)).slot0Inv := by
  rw [CallFrame.new_eq, CallFrame.foldl_push_root, CallStack.pushAll_stack]
  show CallStack.load _ 0 = _
  rfl

/-- **C8.** Local slot 0 holds the owning module reference: frame
creation (`CallFrame::new`) builds a fresh `CallStack` with cursor 0, no
parent, and the callee function's module reference stored in slot 0; and
the VM trampoline (`process`) preserves this for every frame of the
chain under every action — a fresh callee establishes it, and the jump /
native-call / return arms never touch any frame's slot 0 — so it holds
from a frame's creation until the frame is discarded. -/
theorem slot0_module_invariant {OpT : Type} :
    (∀ f : Function OpT,
      (CallFrame.new f).cursor = 0 ∧
      (CallFrame.new f).parent = Option.none ∧
      (CallFrame.new f).stack.load 0 = Except.ok (Value.module f.module)) ∧
    (∀ (vm vm2 : VirtualMachine OpT) (a : OpAction OpT) (st : VmState),
      vm.slot0Inv → vm.process a = Option.some (Except.ok (st, vm2)) →
      vm2.slot0Inv) := by
  constructor
  · intro f
    exact ⟨rfl, rfl, rfl⟩
  · intro vm vm2 a st hinv hp
    cases a with
    | none =>
      simp only [VirtualMachine.process, Option.some.injEq, Except.ok.injEq,
        Prod.mk.injEq] at hp
      rw [← hp.2]
      exact hinv
    | jump d =>
      cases hf : vm.frame with
      | none =>
        simp only [VirtualMachine.process, hf] at hp
        exact Option.noConfusion hp
      | some fr =>
        simp only [VirtualMachine.process, hf, Option.some.injEq,
          Except.ok.injEq, Prod.mk.injEq] at hp
        rw [← hp.2]
        show (fr.jump d).slot0Inv
        rw [CallFrame.slot0Inv_jump]
        simpa [VirtualMachine.slot0Inv, hf] using hinv
    | call func args =>
      simp only [VirtualMachine.process, Option.some.injEq, Except.ok.injEq,
        Prod.mk.injEq] at hp
      rw [← hp.2]
      show (VirtualMachine.linkParent _ vm.frame).slot0Inv
      cases hf : vm.frame with
      | none => exact CallFrame.slot0Inv_callee func args
      | some q =>
        have hq : q.slot0Inv := by
          simpa [VirtualMachine.slot0Inv, hf] using hinv
        have hc := CallFrame.slot0Inv_callee func args
        show CallFrame.slot0Inv (CallFrame.child q _ _ _)
        exact ⟨CallFrame.slot0Inv_head _ hc, hq⟩
    | callNative nf args =>
      cases hf : vm.frame with
      | none =>
        simp only [VirtualMachine.process, hf] at hp
        exact Option.noConfusion hp
      | some fr =>
        simp only [VirtualMachine.process, hf, Option.some.injEq,
          Except.ok.injEq, Prod.mk.injEq] at hp
        rw [← hp.2]
        show (fr.push (nf args)).slot0Inv
        rw [CallFrame.slot0Inv_push]
        simpa [VirtualMachine.slot0Inv, hf] using hinv
    | ret v =>
      cases hf : vm.frame with
      | none =>
        simp only [VirtualMachine.process, hf] at hp
        exact Option.noConfusion hp
      | some fr =>
        have hfr : fr.slot0Inv := by
          simpa [VirtualMachine.slot0Inv, hf] using hinv
        cases fr with
        | root f c s =>
          simp only [VirtualMachine.process, hf, CallFrame.parent,
            Option.some.injEq, Except.ok.injEq, Prod.mk.injEq] at hp
          rw [← hp.2]
          trivial
        | child p f c s =>
          simp only [VirtualMachine.process, hf, CallFrame.parent,
            Option.some.injEq, Except.ok.injEq, Prod.mk.injEq] at hp
          rw [← hp.2]
          show (p.push v).slot0Inv
          rw [CallFrame.slot0Inv_push]
          exact hfr.2

/-- Witness for C8: creation facts for a concrete function, and
preservation across a concrete `Call` action processed on a freshly
created VM. -/
theorem slot0_module_invariant_witness :
    ((CallFrame.new (⟨5, []⟩ : Function DemoOp)).cursor = 0 ∧
     (CallFrame.new (⟨5, []⟩ : Function DemoOp)).parent = Option.none ∧
     (CallFrame.new (⟨5, []⟩ : Function DemoOp)).stack.load 0 =
       Except.ok (Value.module 5)) ∧
    VirtualMachine.slot0Inv
      (⟨Option.some (CallFrame.child (CallFrame.new (⟨5, []⟩ : Function DemoOp))
        (⟨9, []⟩ : Function DemoOp) 0
        (⟨[Value.int 1], [Value.module 9]⟩ : CallStack))⟩ :
        VirtualMachine DemoOp) := by
  refine ⟨(@slot0_module_invariant DemoOp).1 (⟨5, []⟩ : Function DemoOp), ?_⟩
  exact (@slot0_module_invariant DemoOp).2
    (VirtualMachine.new (⟨5, []⟩ : Function DemoOp))
    (⟨Option.some (CallFrame.child (CallFrame.new (⟨5, []⟩ : Function DemoOp))
      (⟨9, []⟩ : Function DemoOp) 0
      (⟨[Value.int 1], [Value.module 9]⟩ : CallStack))⟩ : VirtualMachine DemoOp)
    (OpAction.call (⟨9, []⟩ : Function DemoOp) [Value.int 1])
    VmState.running rfl rfl

/-- **C9.** `step()` and `process()` unwrap the current frame: once a
`Return` with no parent has set the frame to `None` (the VM transitioning
to `Exited`), a subsequent `step()`, or `process()` of a `Jump`,
`CallNative` or `Return` action, hits the `unwrap` on `None` — modelled
as the panic marker `Option.none` — instead of returning an error. -/
theorem unwrap_panic_after_exit {OpT : Type} (execOp : OpExec OpT) :
    (∀ (fr : CallFrame OpT) (v : Value), fr.parent = Option.none →
      VirtualMachine.process ⟨Option.some fr⟩ (OpAction.ret v) =
        Option.some (Except.ok (VmState.exited v,
          (⟨Option.none⟩ : VirtualMachine OpT)))) ∧
    VirtualMachine.step execOp (⟨Option.none⟩ : VirtualMachine OpT) =
      Option.none ∧
    (∀ d : Int,
      VirtualMachine.process (⟨Option.none⟩ : VirtualMachine OpT)
        (OpAction.jump d) = Option.none) ∧
    (∀ (nf : List Value → Value) (args : List Value),
      VirtualMachine.process (⟨Option.none⟩ : VirtualMachine OpT)
        (OpAction.callNative nf args) = Option.none) ∧
    (∀ v : Value,
      VirtualMachine.process (⟨Option.none⟩ : VirtualMachine OpT)
        (OpAction.ret v) = Option.none) := by
  refine ⟨?_, rfl, fun d => rfl, fun nf args => rfl, fun v => rfl⟩
  intro fr v hp
  cases fr with
  | root f c s => rfl
  | child p f c s => exact absurd hp (by simp [CallFrame.parent])

/-- Witness for C9: returning 3 from a root frame exits the VM and clears
the frame; stepping or processing `Jump` / `CallNative` / `Return` on the
cleared VM panics. -/
theorem unwrap_panic_after_exit_witness :
    VirtualMachine.process ⟨Option.some (CallFrame.new
        (⟨1, []⟩ : Function DemoOp))⟩ (OpAction.ret (Value.int 3)) =
      Option.some (Except.ok (VmState.exited (Value.int 3),
        (⟨Option.none⟩ : VirtualMachine DemoOp))) ∧
    VirtualMachine.step DemoOp.run (⟨Option.none⟩ : VirtualMachine DemoOp) =
      Option.none ∧
    VirtualMachine.process (⟨Option.none⟩ : VirtualMachine DemoOp)
      (OpAction.jump 3) = Option.none ∧
    VirtualMachine.process (⟨Option.none⟩ : VirtualMachine DemoOp)
      (OpAction.callNative (fun _ => Value.none) []) = Option.none ∧
    VirtualMachine.process (⟨Option.none⟩ : VirtualMachine DemoOp)
      (OpAction.ret (Value.int 3)) = Option.none := by
  have h := unwrap_panic_after_exit DemoOp.run
  exact ⟨h.1 (CallFrame.new (⟨1, []⟩ : Function DemoOp)) (Value.int 3) rfl,
    h.2.1, h.2.2.1 3, h.2.2.2.1 (fun _ => Value.none) [], h.2.2.2.2 (Value.int 3)⟩

/-- The public `CallStack` operations, as an instruction alphabet for
quantifying over arbitrary usage sequences. Indices are `Fin 256`,
mirroring the `u8` parameters of `load` / `store` / `swap`. -/
inductive StackOp where
  | loadAt (i : Fin 256)
  | storeAt (i : Fin 256) (v : Value)
  | swapAt (i : Fin 256) (v : Value)
  | pushV (v : Value)
  | popV

/-- Apply one `CallStack` operation, keeping the resulting stack state
(`load` reads only; a failed `pop` leaves the state unchanged). -/
def CallStack.applyOp (s : CallStack) : StackOp → CallStack
  | StackOp.loadAt _ => s
  | StackOp.storeAt i v => s.store i v
  | StackOp.swapAt i v => (s.swap i v).1
  | StackOp.pushV v => s.push v
  | StackOp.popV =>
    match s.pop with
    | Except.ok (_, s1) => s1
    | Except.error _ => s

/-- Apply a sequence of `CallStack` operations left to right. -/
def CallStack.applyOps (s : CallStack) (l : List StackOp) : CallStack :=
  l.foldl CallStack.applyOp s

theorem CallStack.store_locals_length (s : CallStack) (i : Fin 256) (v : Value) :
    (s.store i v).locals.length = max s.locals.length (i.val + 1) := by
  unfold CallStack.store
  simp only [List.length_set]
  exact resizeLocals_length s.locals i.val

theorem CallStack.swap_locals_length (s : CallStack) (i : Fin 256) (v : Value) :
    (s.swap i v).1.locals.length = max s.locals.length (i.val + 1) := by
  unfold CallStack.swap
  simp only [List.length_set]
  exact resizeLocals_length s.locals i.val

theorem CallStack.applyOp_locals_le (s : CallStack) (o : StackOp)
    (h : s.locals.length ≤ 256) : (s.applyOp o).locals.length ≤ 256 := by
  cases o with
  | loadAt i => exact h
  | storeAt i v =>
    rw [CallStack.applyOp, CallStack.store_locals_length]
    have := i.isLt
    omega
  | swapAt i v =>
    rw [CallStack.applyOp, CallStack.swap_locals_length]
    have := i.isLt
    omega
  | pushV v => exact h
  | popV =>
    rw [CallStack.applyOp]
    unfold CallStack.pop
    cases s.stack <;> exact h

/-- **C10.** Local indices are 8-bit (`u8`, modelled `Fin 256`), so only
slots 0 through 255 are addressable. Under any sequence of `CallStack`
operations starting from a fresh stack the locals never grow beyond 256
slots, and `store` / `swap` at any representable index always succeed:
they total-return a stack whose locals cover the written index (so the
write landed), with no error path in their types. -/
theorem locals_never_exceed_256 :
    (∀ (s : CallStack) (o : StackOp), s.locals.length ≤ 256 →
      (s.applyOp o).locals.length ≤ 256) ∧
    (∀ l : List StackOp, (CallStack.new.applyOps l).locals.length ≤ 256) ∧
    (∀ (s : CallStack) (i : Fin 256) (v : Value),
      i.val < (s.store i v).locals.length ∧
      i.val < (s.swap i v).1.locals.length) := by
  refine ⟨CallStack.applyOp_locals_le, ?_, ?_⟩
  · have key : ∀ (l : List StackOp) (s : CallStack), s.locals.length ≤ 256 →
        (s.applyOps l).locals.length ≤ 256 := by
      intro l
      induction l with
      | nil => exact fun s h => h
      | cons o l ih =>
        intro s h
        exact ih (s.applyOp o) (CallStack.applyOp_locals_le s o h)
    exact fun l => key l CallStack.new (by decide)
  · intro s i v
    rw [CallStack.store_locals_length, CallStack.swap_locals_length]
    omega

/-- Witness for C10: storing at the top index 255 on a fresh stack keeps
the locals within 256 slots, and a concrete operation sequence stays
within the bound. -/
theorem locals_never_exceed_256_witness :
    (CallStack.new.applyOp (StackOp.storeAt 255 (Value.int 1))).locals.length
      ≤ 256 ∧
    (CallStack.new.applyOps [StackOp.storeAt 255 (Value.int 1),
      StackOp.swapAt 17 (Value.int 2), StackOp.pushV (Value.int 3),
      StackOp.popV, StackOp.popV]).locals.length ≤ 256 ∧
    ((255 : Fin 256).val <
      (CallStack.new.store 255 (Value.int 1)).locals.length ∧
     (255 : Fin 256).val <
      (CallStack.new.swap 255 (Value.int 1)).1.locals.length) :=
  ⟨locals_never_exceed_256.1 CallStack.new (StackOp.storeAt 255 (Value.int 1))
     (by decide),
   locals_never_exceed_256.2.1 [StackOp.storeAt 255 (Value.int 1),
     StackOp.swapAt 17 (Value.int 2), StackOp.pushV (Value.int 3),
     StackOp.popV, StackOp.popV],
   locals_never_exceed_256.2.2 CallStack.new 255 (Value.int 1)⟩

end DougVM
